import Mathlib

/-!
Verification of the breeze-emu SNES emulator core against its
natural-language specification.

The definitions below are shallow embeddings of the Rust source:

* `src/apu/mod.rs` — the SPC700 audio coprocessor: status register
  (`StatusReg`), arithmetic/logic instruction bodies (`cmp`, `adc`, `ror`),
  the internal memory-mapped `load` and the mailbox ports
  (`store_port` / `read_port`).
* `src/breeze_core/snes.rs` — the `Peripherals` bus (system registers
  `$4203`/`$4206`, the WRAM data-port pointer) and the `render_frame`
  scheduler (cycle-debt accounting and the IRQ match check).

Machine integers are embedded as `Nat` (or `Int` for the signed debt
accumulators), with explicit `% 2^w` or masking wherever the Rust code
truncates or wraps.
-/

namespace Breeze

/-! ## SPC700 status register (`StatusReg` in `src/apu/mod.rs`)

The PSW is a `u8` bitmask. We embed it as a `Nat`; the masking operations
used by the source (`|=`, `&= !flag` on `u8`) keep every value reachable
from an 8-bit PSW below 256, and the flag readers only inspect single
bits, so the embedding is faithful bit for bit.
-/

def NEG_FLAG : Nat := 0x80

def OVERFLOW_FLAG : Nat := 0x40

def DIRECT_PAGE_FLAG : Nat := 0x20

def HALF_CARRY_FLAG : Nat := 0x08

def ZERO_FLAG : Nat := 0x02

def CARRY_FLAG : Nat := 0x01

/-- Embedding of `StatusReg::set`: set or clear a flag bit. The clearing branch is the
`u8` operation `self.0 &= !flag`, i.e. a conjunction with the 8-bit
complement `flag ^^^ 0xff`. -/
def pswSet (p flag : Nat) (v : Bool) : Nat :=
  if v then p ||| flag else p &&& (flag ^^^ 0xff)

/-- Reader `StatusReg::negative`. -/
def negative (p : Nat) : Bool := p &&& NEG_FLAG != 0

/-- Reader `StatusReg::zero`. -/
def zero (p : Nat) : Bool := p &&& ZERO_FLAG != 0

/-- Reader `StatusReg::carry`. -/
def carry (p : Nat) : Bool := p &&& CARRY_FLAG != 0

/-- Reader `StatusReg::half_carry`. -/
def half_carry (p : Nat) : Bool := p &&& HALF_CARRY_FLAG != 0

/-- Reader `StatusReg::overflow`. -/
def overflow (p : Nat) : Bool := p &&& OVERFLOW_FLAG != 0

/-- Embedding of `StatusReg::set_nz`: N is loaded from bit 7 of the value, Z from the
value being zero. (The source also returns the value unchanged; callers
below use the value directly.) -/
def set_nz (p val : Nat) : Nat :=
  pswSet (pswSet p NEG_FLAG (val &&& 0x80 != 0)) ZERO_FLAG (val == 0)

/-- Embedding of `u8::wrapping_sub` on byte values embedded in `Nat`. -/
def wrapping_sub8 (a b : Nat) : Nat := (a % 256 + 256 - b % 256) % 256

/-- Embedding of `Spc700::cmp` (src/apu/mod.rs): `diff = a.wrapping_sub(b)`, then
`set_nz(diff)` and `set_carry(diff & 0x80 != 0)`. Returns the new PSW. -/
def cmp_code (a b p : Nat) : Nat :=
  let diff := wrapping_sub8 a b
  pswSet (set_nz p diff) CARRY_FLAG (diff &&& 0x80 != 0)

/-! ### Helper lemmas about PSW bit manipulation -/

theorem pswSet_testBit (p f : Nat) (v : Bool) (j : Nat) :
    (pswSet p f v).testBit j =
      if v then (p.testBit j || f.testBit j)
      else (p.testBit j && ((f ^^^ 0xff).testBit j)) := by
  unfold pswSet
  cases v <;> simp [Nat.testBit_or, Nat.testBit_and]

theorem and_single_bit_ne (q k : Nat) : (q &&& 2 ^ k != 0) = q.testBit k := by
  rw [Nat.and_two_pow]
  cases hb : q.testBit k <;> simp [hb]

theorem negative_testBit (p : Nat) : negative p = p.testBit 7 := by
  have h : NEG_FLAG = 2 ^ 7 := by norm_num [NEG_FLAG]
  rw [negative, h, and_single_bit_ne]

theorem zero_testBit (p : Nat) : zero p = p.testBit 1 := by
  have h : ZERO_FLAG = 2 ^ 1 := by norm_num [ZERO_FLAG]
  rw [zero, h, and_single_bit_ne]

theorem carry_testBit (p : Nat) : carry p = p.testBit 0 := by
  have h : CARRY_FLAG = 2 ^ 0 := by norm_num [CARRY_FLAG]
  rw [carry, h, and_single_bit_ne]

theorem half_carry_testBit (p : Nat) : half_carry p = p.testBit 3 := by
  have h : HALF_CARRY_FLAG = 2 ^ 3 := by norm_num [HALF_CARRY_FLAG]
  rw [half_carry, h, and_single_bit_ne]

theorem overflow_testBit (p : Nat) : overflow p = p.testBit 6 := by
  have h : OVERFLOW_FLAG = 2 ^ 6 := by norm_num [OVERFLOW_FLAG]
  rw [overflow, h, and_single_bit_ne]

end Breeze

namespace Breeze

/-- After `cmp`, the N flag holds bit 7 of the wrapped difference. -/
theorem negative_cmp (a b p : Nat) :
    negative (cmp_code a b p) = (wrapping_sub8 a b &&& 0x80 != 0) := by
  rw [negative_testBit]
  unfold cmp_code set_nz
  simp only [pswSet_testBit]
  cases h1 : (wrapping_sub8 a b &&& 0x80 != 0) <;>
    cases h2 : (wrapping_sub8 a b == 0) <;>
      simp +decide [NEG_FLAG, ZERO_FLAG, CARRY_FLAG]

/-- After `cmp`, the Z flag holds whether the wrapped difference is zero. -/
theorem zero_cmp (a b p : Nat) :
    zero (cmp_code a b p) = (wrapping_sub8 a b == 0) := by
  rw [zero_testBit]
  unfold cmp_code set_nz
  simp only [pswSet_testBit]
  cases h1 : (wrapping_sub8 a b &&& 0x80 != 0) <;>
    cases h2 : (wrapping_sub8 a b == 0) <;>
      simp +decide [NEG_FLAG, ZERO_FLAG, CARRY_FLAG]

/-- After `cmp`, the C flag holds bit 7 of the wrapped difference. -/
theorem carry_cmp (a b p : Nat) :
    carry (cmp_code a b p) = (wrapping_sub8 a b &&& 0x80 != 0) := by
  rw [carry_testBit]
  unfold cmp_code set_nz
  simp only [pswSet_testBit]
  cases h1 : (wrapping_sub8 a b &&& 0x80 != 0) <;>
    cases h2 : (wrapping_sub8 a b == 0) <;>
      simp +decide [NEG_FLAG, ZERO_FLAG, CARRY_FLAG]

/-- C5: for 8-bit values `a` and `b`, `Spc700::cmp` computes the wrapped
difference `(a - b) mod 256`, sets N and Z from that result, and sets
C to bit 7 of the result (`(result & 0x80) != 0`), exactly as the source
does — not the conventional borrow-based carry. -/
theorem cmp_flags_spec (a b p : Nat) (ha : a < 256) (hb : b < 256) :
    ((wrapping_sub8 a b : Int) = ((a : Int) - (b : Int)) % 256) ∧
    negative (cmp_code a b p) = (wrapping_sub8 a b &&& 0x80 != 0) ∧
    zero (cmp_code a b p) = (wrapping_sub8 a b == 0) ∧
    carry (cmp_code a b p) = (wrapping_sub8 a b &&& 0x80 != 0) :=
  ⟨by simp only [wrapping_sub8]; omega,
   negative_cmp a b p, zero_cmp a b p, carry_cmp a b p⟩

/-- Witness: `cmp` on the concrete bytes `a = 0x40`, `b = 0x90` with an
all-clear PSW; the wrapped difference is `0xB0`, so N and C are set and
Z is clear. -/
theorem cmp_flags_spec_witness :
    ((wrapping_sub8 0x40 0x90 : Int) = ((0x40 : Int) - (0x90 : Int)) % 256) ∧
    negative (cmp_code 0x40 0x90 0) = (wrapping_sub8 0x40 0x90 &&& 0x80 != 0) ∧
    zero (cmp_code 0x40 0x90 0) = (wrapping_sub8 0x40 0x90 == 0) ∧
    carry (cmp_code 0x40 0x90 0) = (wrapping_sub8 0x40 0x90 &&& 0x80 != 0) :=
  cmp_flags_spec 0x40 0x90 0 (by decide) (by decide)

/-! ## ADC and ROR (`Spc700::adc`, `Spc700::ror` in `src/apu/mod.rs`)

Both instructions read their operand through an `AddressingMode`; the
embedding abstracts the operand location to its byte value and records in
`OpOut.operand` the value the location holds after the instruction body
ran (the value passed to `storeb`, or the original value when the body
performs no store). -/

structure OpOut where
  operand : Nat
  psw : Nat

/-- The carry-in `let c = if self.psw.carry() { 1 } else { 0 }` used by `adc`. -/
def carry_in (p : Nat) : Nat := if carry p then 1 else 0

/-- Embedding of `Spc700::adc`: 9-bit sum of operand `a` (destination), operand `b`
(source) and the carry-in; sets C, H, V, N, Z exactly as the source and
stores the truncated result back (`dest.storeb(self, res)`). -/
def adc_code (a b p : Nat) : OpOut :=
  let c := carry_in p
  let res16 := a + b + c
  let p1 := pswSet p CARRY_FLAG (decide (res16 > 255))
  let p2 := pswSet p1 HALF_CARRY_FLAG ((((a &&& 0x0f) + (b &&& 0x0f) + c) &&& 0xf0) != 0)
  let res := res16 % 256
  let p3 := pswSet p2 OVERFLOW_FLAG ((((a ^^^ b) &&& 0x80) == 0) && (((a ^^^ res) &&& 0x80) == 0x80))
  ⟨res, set_nz p3 res⟩

/-- Embedding of `Spc700::ror`: rotate right through carry. The source computes the
rotated value, loads C from bit 0 of the operand and N/Z from the rotated
value, but never calls `storeb` — the binding `let res = ...` is unused —
so the operand location keeps its original value. -/
def ror_code (val p : Nat) : OpOut :=
  let c := if carry p then 0x80 else 0
  let p1 := pswSet p CARRY_FLAG ((val &&& 0x01) != 0)
  let res := (val >>> 1) ||| c
  let p2 := set_nz p1 res
  ⟨val, p2⟩

/-! ### Reading each flag after the C/H/V/N/Z update chain of `adc` -/

theorem chain_carry (p : Nat) (cb hb vb : Bool) (res : Nat) :
    carry (set_nz (pswSet (pswSet (pswSet p CARRY_FLAG cb) HALF_CARRY_FLAG hb)
      OVERFLOW_FLAG vb) res) = cb := by
  rw [carry_testBit]
  unfold set_nz
  simp only [pswSet_testBit]
  cases cb <;> cases hb <;> cases vb <;>
    cases h1 : (res &&& 0x80 != 0) <;> cases h2 : (res == 0) <;>
      simp +decide [NEG_FLAG, ZERO_FLAG, CARRY_FLAG, HALF_CARRY_FLAG, OVERFLOW_FLAG]

theorem chain_half_carry (p : Nat) (cb hb vb : Bool) (res : Nat) :
    half_carry (set_nz (pswSet (pswSet (pswSet p CARRY_FLAG cb) HALF_CARRY_FLAG hb)
      OVERFLOW_FLAG vb) res) = hb := by
  rw [half_carry_testBit]
  unfold set_nz
  simp only [pswSet_testBit]
  cases cb <;> cases hb <;> cases vb <;>
    cases h1 : (res &&& 0x80 != 0) <;> cases h2 : (res == 0) <;>
      simp +decide [NEG_FLAG, ZERO_FLAG, CARRY_FLAG, HALF_CARRY_FLAG, OVERFLOW_FLAG]

theorem chain_overflow (p : Nat) (cb hb vb : Bool) (res : Nat) :
    overflow (set_nz (pswSet (pswSet (pswSet p CARRY_FLAG cb) HALF_CARRY_FLAG hb)
      OVERFLOW_FLAG vb) res) = vb := by
  rw [overflow_testBit]
  unfold set_nz
  simp only [pswSet_testBit]
  cases cb <;> cases hb <;> cases vb <;>
    cases h1 : (res &&& 0x80 != 0) <;> cases h2 : (res == 0) <;>
      simp +decide [NEG_FLAG, ZERO_FLAG, CARRY_FLAG, HALF_CARRY_FLAG, OVERFLOW_FLAG]

theorem chain_negative (p : Nat) (cb hb vb : Bool) (res : Nat) :
    negative (set_nz (pswSet (pswSet (pswSet p CARRY_FLAG cb) HALF_CARRY_FLAG hb)
      OVERFLOW_FLAG vb) res) = (res &&& 0x80 != 0) := by
  rw [negative_testBit]
  unfold set_nz
  simp only [pswSet_testBit]
  cases cb <;> cases hb <;> cases vb <;>
    cases h1 : (res &&& 0x80 != 0) <;> cases h2 : (res == 0) <;>
      simp +decide [NEG_FLAG, ZERO_FLAG, CARRY_FLAG, HALF_CARRY_FLAG, OVERFLOW_FLAG]

theorem chain_zero (p : Nat) (cb hb vb : Bool) (res : Nat) :
    zero (set_nz (pswSet (pswSet (pswSet p CARRY_FLAG cb) HALF_CARRY_FLAG hb)
      OVERFLOW_FLAG vb) res) = (res == 0) := by
  rw [zero_testBit]
  unfold set_nz
  simp only [pswSet_testBit]
  cases cb <;> cases hb <;> cases vb <;>
    cases h1 : (res &&& 0x80 != 0) <;> cases h2 : (res == 0) <;>
      simp +decide [NEG_FLAG, ZERO_FLAG, CARRY_FLAG, HALF_CARRY_FLAG, OVERFLOW_FLAG]

/-- C6: `adc` computes the 9-bit sum `a + b + c`, sets C iff the sum
exceeds 255, H iff `((a & 0x0F) + (b & 0x0F) + c) & 0xF0 != 0`, V iff
`(a ^ b) & 0x80 == 0` and `(a ^ result) & 0x80 == 0x80`, N/Z from the
truncated 8-bit result, and stores that result to the destination
operand. -/
theorem adc_spec (a b p : Nat) :
    (adc_code a b p).operand = (a + b + carry_in p) % 256 ∧
    (carry (adc_code a b p).psw = true ↔ a + b + carry_in p > 255) ∧
    (half_carry (adc_code a b p).psw = true ↔
      (((a &&& 0x0f) + (b &&& 0x0f) + carry_in p) &&& 0xf0) ≠ 0) ∧
    (overflow (adc_code a b p).psw = true ↔
      ((a ^^^ b) &&& 0x80 = 0 ∧ (a ^^^ (adc_code a b p).operand) &&& 0x80 = 0x80)) ∧
    (negative (adc_code a b p).psw = ((a + b + carry_in p) % 256 &&& 0x80 != 0)) ∧
    (zero (adc_code a b p).psw = ((a + b + carry_in p) % 256 == 0)) := by
  refine ⟨rfl, ?_, ?_, ?_, ?_, ?_⟩
  · show carry (adc_code a b p).psw = true ↔ _
    unfold adc_code
    rw [chain_carry]
    simp
  · show half_carry (adc_code a b p).psw = true ↔ _
    unfold adc_code
    rw [chain_half_carry]
    simp
  · show overflow (adc_code a b p).psw = true ↔ _
    unfold adc_code
    rw [chain_overflow]
    simp
  · show negative (adc_code a b p).psw = _
    unfold adc_code
    rw [chain_negative]
  · show zero (adc_code a b p).psw = _
    unfold adc_code
    rw [chain_zero]

/-- C4 (code bug): running `ror` on the operand byte `0x01` with carry
clear. The rotated value is `0x00`, so the source sets C (from bit 0 of
the operand) and Z (from the rotated value), but the operand location
still holds `0x01`: the rotate result is computed and dropped, never
stored back as the specification requires. -/
theorem ror_missing_store :
    (ror_code 0x01 0).operand = 0x01 ∧
    ((0x01 >>> 1) ||| 0 : Nat) = 0 ∧
    carry (ror_code 0x01 0).psw = true ∧
    zero (ror_code 0x01 0).psw = true ∧
    negative (ror_code 0x01 0).psw = false ∧
    (ror_code 0x01 0).operand ≠ ((0x01 >>> 1) ||| 0 : Nat) := by
  decide

/-! ## Scheduler (`Snes::render_frame` in `src/breeze_core/snes.rs`)

The cycle-debt bookkeeping between the CPU dispatch and the drain loops
(lines `let cpu_master_cy = ...` through `self.ppu_master_cy_debt += ...`)
and the IRQ match check at the end of the PPU drain loop body. -/

/-- Predicate `Peripherals::v_irq_enabled`: NMITIMEN bit 4. -/
def v_irq_enabled (nmien : Nat) : Bool := nmien &&& 0x10 != 0

/-- Predicate `Peripherals::h_irq_enabled`: NMITIMEN bit 5. -/
def h_irq_enabled (nmien : Nat) : Bool := nmien &&& 0x20 != 0

/-- The IRQ match check run after the scanline events in the PPU drain
loop: first `if v == vtime && v_irq_enabled`, then
`if h == htime && h_irq_enabled`; either branch sets `irq`, calls
`trigger_irq()` and breaks the loop. Returns whether an IRQ was raised
(and hence the loop broken). -/
def irqCheck (nmien v h vtime htime : Nat) : Bool :=
  if v == vtime && v_irq_enabled nmien then true
  else if h == htime && h_irq_enabled nmien then true
  else false

/-- Counterexample to C2 as stated: with both H-IRQ and V-IRQ enabled
(NMITIMEN = 0x30), V = vtime = 100 but H = 20 ≠ htime = 200, the code
raises the IRQ on the V match alone — the two matches are checked by
independent `if`s, not conjoined. -/
theorem irq_both_enabled_cex :
    h_irq_enabled 0x30 = true ∧ v_irq_enabled 0x30 = true ∧
    irqCheck 0x30 100 20 100 200 = true ∧ ¬(20 = 200 ∧ 100 = 100) := by
  decide

/-- C2 (amended): the drain loop raises an IRQ (setting `irq` and
breaking) exactly when V == vtime with V-IRQ enabled, or H == htime with
H-IRQ enabled — each condition suffices on its own, even when both IRQ
sources are enabled. In particular, with H-IRQ disabled and V-IRQ
enabled, V == vtime alone suffices. -/
theorem irqCheck_spec (nmien v h vtime htime : Nat) :
    irqCheck nmien v h vtime htime =
      ((v == vtime && v_irq_enabled nmien) || (h == htime && h_irq_enabled nmien)) := by
  unfold irqCheck
  cases h1 : (v == vtime && v_irq_enabled nmien) <;>
    cases h2 : (h == htime && h_irq_enabled nmien) <;> simp [h1, h2]

/-- The floored master-cycle count of one main-CPU instruction:
`cmp::max(3, dispatch * CPU_CYCLE + mem.cy)` with `CPU_CYCLE = 6`. -/
def cpuMasterCy (instr_cy io_cy : Nat) : Int :=
  max 3 ((instr_cy : Int) * 6 + (io_cy : Int))

/-- The debt updates `apu_master_cy_debt += cpu_master_cy` and
`ppu_master_cy_debt += cpu_master_cy` performed after the CPU dispatch and
before either drain loop. -/
def stepDebts (instr_cy io_cy : Nat) (apu ppu : Int) : Int × Int :=
  (apu + cpuMasterCy instr_cy io_cy, ppu + cpuMasterCy instr_cy io_cy)

/-- Counterexample to C3 as stated: a 2-cycle instruction with no I/O
penalty and both debts at 0 yields `cpu_master_cy = 12`, but the sum
`apu_debt + ppu_debt` grows from 0 to 24, i.e. by twice the floored
`cpu_cy`, not by `cpu_cy`. -/
theorem debt_sum_cex :
    ¬ ((stepDebts 2 0 0 0).1 + (stepDebts 2 0 0 0).2 = 0 + 0 + cpuMasterCy 2 0) := by
  decide

/-- C3 (amended): between the CPU dispatch and the first drain-loop
iteration, each of `apu_debt` and `ppu_debt` individually increases by
exactly the floored `cpu_cy = max(3, instr_cycles * 6 + accrued_io)`, so
their sum increases by exactly twice that amount. -/
theorem debt_step_spec (instr_cy io_cy : Nat) (apu ppu : Int) :
    (stepDebts instr_cy io_cy apu ppu).1 = apu + cpuMasterCy instr_cy io_cy ∧
    (stepDebts instr_cy io_cy apu ppu).2 = ppu + cpuMasterCy instr_cy io_cy ∧
    (stepDebts instr_cy io_cy apu ppu).1 + (stepDebts instr_cy io_cy apu ppu).2
      = apu + ppu + 2 * cpuMasterCy instr_cy io_cy ∧
    cpuMasterCy instr_cy io_cy = max 3 ((instr_cy : Int) * 6 + (io_cy : Int)) := by
  refine ⟨rfl, rfl, ?_, rfl⟩
  simp only [stepDebts]
  ring

/-! ## System registers `$4203` and `$4206`
(`Peripherals::store` in `src/breeze_core/snes.rs`) -/

/-- The `$4203` (WRMPYB) store: records the value and performs the
multiplication `rdmpy = wrmpya as u16 * value as u16`. Returns the new
`(wrmpyb, rdmpy)` pair; the `u16` product is embedded with an explicit
`% 2^16`. -/
def store4203 (wrmpya value : Nat) : Nat × Nat :=
  (value, (wrmpya * value) % 65536)

/-- The `$4206` (WRDIVB) store: `rddiv = if value == 0 { 0xffff } else
{ wrdiv / value }` and `rdmpy = if value == 0 { value } else
{ wrdiv % value }`. Returns the new `(rddiv, rdmpy)` pair. -/
def store4206 (wrdiv value : Nat) : Nat × Nat :=
  ((if value = 0 then 0xffff else wrdiv / value),
   (if value = 0 then value else wrdiv % value))

/-- C9: writing `v` to `$4203` records `v` in `wrmpyb` and sets `rdmpy`
to the exact unsigned product `wrmpya * v`, which always fits in 16 bits
for 8-bit factors. -/
theorem mul_trigger_spec (a v : Nat) (ha : a < 256) (hv : v < 256) :
    store4203 a v = (v, a * v) ∧ a * v < 65536 := by
  have h : a * v < 65536 := by
    calc a * v ≤ 255 * 255 := Nat.mul_le_mul (by omega) (by omega)
    _ < 65536 := by norm_num
  exact ⟨by simp [store4203, Nat.mod_eq_of_lt h], h⟩

/-- Witness: the multiplier scenario from the spec, `wrmpya = 0x10`, value
`0x20`, giving `rdmpy = 0x0200`. -/
theorem mul_trigger_spec_witness :
    (store4203 0x10 0x20 = (0x20, 0x10 * 0x20) ∧ 0x10 * 0x20 < 65536) :=
  mul_trigger_spec 0x10 0x20 (by decide) (by decide)

/-- C1 (code bug): writing 0 to `$4206` always sets `rddiv = 0xFFFF` and
`rdmpy = 0` — the source stores `value as u16` (which is 0) into `rdmpy`
instead of the dividend. At the scenario given in the spec, `wrdiv = 0x1234` the
result differs from the specified `(0xFFFF, 0x1234)`. -/
theorem div_by_zero_rdmpy :
    (∀ w, store4206 w 0 = (0xffff, 0)) ∧ store4206 0x1234 0 ≠ (0xffff, 0x1234) :=
  ⟨fun _ => rfl, by decide⟩

/-! ## The `$2180` WRAM data-port pointer
(`Peripherals::get_and_inc_wram_addr` and the `$2181`–`$2183` store arms
in `src/breeze_core/snes.rs`) -/

/-- Constant `WRAM_SIZE`: 128 * 1024 bytes of work RAM. -/
def WRAM_SIZE : Nat := 128 * 1024

/-- The three WRAM-address bytes `wmaddl` / `wmaddm` / `wmaddh` of
`Peripherals`. Each is a `u8` in the source; `WramPtr.inv` below captures
the byte bounds plus the fact that `wmaddh` only ever holds bit 0. -/
structure WramPtr where
  wmaddl : Nat
  wmaddm : Nat
  wmaddh : Nat
deriving DecidableEq

/-- The assembled 17-bit pointer `wmaddh << 16 | wmaddm << 8 | wmaddl`. -/
def WramPtr.addr (w : WramPtr) : Nat :=
  (w.wmaddh <<< 16) ||| (w.wmaddm <<< 8) ||| w.wmaddl

/-- Embedding of `Peripherals::get_and_inc_wram_addr`: return the assembled pointer
and store back `new_addr = addr + 1`, truncating each byte (`as u8`) and
masking the high byte with `& 1`. -/
def get_and_inc_wram_addr (w : WramPtr) : Nat × WramPtr :=
  let addr := w.addr
  let na := addr + 1
  (addr, ⟨na % 256, (na >>> 8) % 256, ((na >>> 16) % 256) &&& 1⟩)

/-- The `$2181` store arm: `self.wmaddl = value`. -/
def store2181 (w : WramPtr) (value : Nat) : WramPtr := { w with wmaddl := value }

/-- The `$2182` store arm: `self.wmaddm = value`. -/
def store2182 (w : WramPtr) (value : Nat) : WramPtr := { w with wmaddm := value }

/-- The `$2183` store arm: `self.wmaddh = value & 1`. -/
def store2183 (w : WramPtr) (value : Nat) : WramPtr := { w with wmaddh := value &&& 1 }

/-- The pointer invariant: low and middle bytes are bytes and the high
byte holds at most bit 0, so the assembled pointer is below `2^17`. -/
def WramPtr.inv (w : WramPtr) : Prop :=
  w.wmaddl < 256 ∧ w.wmaddm < 256 ∧ w.wmaddh ≤ 1

/-- C10: every `$2180` access indexes WRAM in bounds: under the invariant
the assembled pointer is below `WRAM_SIZE = 2^17`; `get_and_inc_wram_addr`
and the `$2181`–`$2183` stores (the only bus operations touching the
pointer bytes) preserve the invariant — `$2183` keeps only bit 0 of the
written byte; and at `0x1FFFF` the auto-increment wraps the pointer back
to 0. -/
theorem wram_port_safety :
    (∀ w : WramPtr, w.inv →
      (get_and_inc_wram_addr w).1 < WRAM_SIZE ∧ (get_and_inc_wram_addr w).2.inv) ∧
    (∀ (w : WramPtr) (v : Nat), w.inv → v < 256 →
      (store2181 w v).inv ∧ (store2182 w v).inv ∧ (store2183 w v).inv) ∧
    get_and_inc_wram_addr ⟨0xff, 0xff, 0x01⟩ = (0x1ffff, ⟨0, 0, 0⟩) := by
  refine ⟨?_, ?_, by decide⟩
  · rintro w ⟨hl, hm, hh⟩
    constructor
    · show w.addr < WRAM_SIZE
      have h17 : WRAM_SIZE = 2 ^ 17 := by norm_num [WRAM_SIZE]
      rw [h17]
      apply Nat.or_lt_two_pow
      · apply Nat.or_lt_two_pow
        · rw [Nat.shiftLeft_eq]
          calc w.wmaddh * 2 ^ 16 ≤ 1 * 2 ^ 16 := Nat.mul_le_mul_right _ hh
          _ < 2 ^ 17 := by norm_num
        · rw [Nat.shiftLeft_eq]
          calc w.wmaddm * 2 ^ 8 ≤ 255 * 2 ^ 8 := Nat.mul_le_mul_right _ (by omega)
          _ < 2 ^ 17 := by norm_num
      · omega
    · refine ⟨Nat.mod_lt _ (by norm_num), Nat.mod_lt _ (by norm_num), ?_⟩
      show ((w.addr + 1) >>> 16 % 256) &&& 1 ≤ 1
      exact Nat.and_le_right
  · rintro w v ⟨hl, hm, hh⟩ hv
    exact ⟨⟨hv, hm, hh⟩, ⟨hl, hv, hh⟩, ⟨hl, hm, Nat.and_le_right⟩⟩

/-- Witness: the pointer `0x011FFE` satisfies the invariant; the access
is in bounds, the invariant survives the increment, and the `$2181`,
`$2182`, `$2183` stores of the byte `0xAB` keep it as well. -/
theorem wram_port_safety_witness :
    ((get_and_inc_wram_addr ⟨0xfe, 0x1f, 1⟩).1 < WRAM_SIZE ∧
     (get_and_inc_wram_addr ⟨0xfe, 0x1f, 1⟩).2.inv) ∧
    ((store2181 ⟨0xfe, 0x1f, 1⟩ 0xab).inv ∧ (store2182 ⟨0xfe, 0x1f, 1⟩ 0xab).inv ∧
     (store2183 ⟨0xfe, 0x1f, 1⟩ 0xab).inv) :=
  ⟨wram_port_safety.1 ⟨0xfe, 0x1f, 1⟩ ⟨by decide, by decide, by decide⟩,
   wram_port_safety.2.1 ⟨0xfe, 0x1f, 1⟩ 0xab ⟨by decide, by decide, by decide⟩ (by decide)⟩

/-! ## AudioCore state, internal `load` and the mailbox ports
(`Spc700::load`, `Spc700::store_port`, `Spc700::read_port` in
`src/apu/mod.rs`) -/

/-- One APU timer. `src/apu/mod.rs` reads and zeroes the output counter
`val` and writes the divider `div`; the tick machinery lives in
`src/apu/timer.rs` and is not needed by the claims below. -/
structure Timer where
  val : Nat
  div : Nat
deriving DecidableEq

/-- The `Spc700` state: 64 KiB RAM (`mem`), the DSP address latch, the
inbound mailbox `io_vals` written by the main CPU, the three timers, the
DSP, and the CPU registers. `dspRegs` stands in for the `Dsp` collaborator.

Modelled from the spec: `src/apu/dsp.rs` is not part of the sources; per
the spec the DSP is "an array of registers" with `load(reg) -> u8`, so it
is embedded as the function `dspRegs` and `Dsp::load` as application. -/
structure Spc700 where
  mem : Nat → Nat
  reg_dsp_addr : Nat
  io_vals : Fin 4 → Nat
  timers : Fin 3 → Timer
  dspRegs : Nat → Nat
  a : Nat
  x : Nat
  y : Nat
  sp : Nat
  pc : Nat
  psw : Nat

/-- Embedding of `Spc700::load`: the APU-side view of its address space. Reads of the
write-only registers `$F0`, `$F1`, `$FA`–`$FC` panic in the source and
are embedded as `none`. Reads of `$FD`–`$FF` return the output
counter and zero it; everything not handled explicitly reads RAM. -/
def apuLoad (s : Spc700) (addr : Nat) : Option (Nat × Spc700) :=
  if addr = 0xf0 ∨ addr = 0xf1 ∨ (0xfa ≤ addr ∧ addr ≤ 0xfc) then
    none
  else if addr = 0xf2 then some (s.reg_dsp_addr, s)
  else if addr = 0xf3 then some (s.dspRegs s.reg_dsp_addr, s)
  else if addr = 0xf4 then some (s.io_vals 0, s)
  else if addr = 0xf5 then some (s.io_vals 1, s)
  else if addr = 0xf6 then some (s.io_vals 2, s)
  else if addr = 0xf7 then some (s.io_vals 3, s)
  else if addr = 0xfd then
    some ((s.timers 0).val,
      { s with timers := Function.update s.timers 0 { s.timers 0 with val := 0 } })
  else if addr = 0xfe then
    some ((s.timers 1).val,
      { s with timers := Function.update s.timers 1 { s.timers 1 with val := 0 } })
  else if addr = 0xff then
    some ((s.timers 2).val,
      { s with timers := Function.update s.timers 2 { s.timers 2 with val := 0 } })
  else some (s.mem addr, s)

/-- Embedding of `Spc700::store_port`: the main CPU writes a byte into the inbound
mailbox `io_vals[port]`. -/
def store_port (s : Spc700) (port : Fin 4) (value : Nat) : Spc700 :=
  { s with io_vals := Function.update s.io_vals port value }

/-- Embedding of `Spc700::read_port`: the main CPU reads `ram[0xf4 + port]`, the
outbound mailbox backed by APU RAM. -/
def read_port (s : Spc700) (port : Fin 4) : Nat :=
  s.mem (0xf4 + port.val)

/-- C7: for each timer `i`, an APU load of `0xFD + i` returns the
output counter of timer `i` and zeroes exactly that counter: the resulting state is
the original with only `timers[i].val` replaced by 0 — RAM, registers,
the DSP latch, the mailbox and the other timers are untouched. -/
theorem timer_out_read_resets (s : Spc700) (i : Fin 3) :
    apuLoad s (0xfd + i.val) =
      some ((s.timers i).val,
        { s with timers := Function.update s.timers i { s.timers i with val := 0 } }) := by
  fin_cases i <;> rfl

/-- C8: after the main CPU writes `v` into mailbox port `p`, an APU load
of `0xF4 + p` returns `v` (and leaves the state unchanged); the write
does not touch APU RAM, so a main-CPU `read_port(p)` still returns
the RAM byte `ram[0xF4 + p]` — the outbound mailbox — not `v`. -/
theorem mailbox_write_read (s : Spc700) (p : Fin 4) (v : Nat) :
    apuLoad (store_port s p v) (0xf4 + p.val) = some (v, store_port s p v) ∧
    (store_port s p v).mem = s.mem ∧
    read_port (store_port s p v) p = s.mem (0xf4 + p.val) := by
  refine ⟨?_, rfl, rfl⟩
  fin_cases p <;> simp [apuLoad, store_port]

end Breeze
